import Mathlib

/-!
Verification of the `stu` study-tracking CLI (journals and logs, bracketed
template codec, JSON persistence, query engine) against its Rust sources
(`src/main.rs`, `src/stu/mod.rs`, `src/stu/utils.rs`).

Modelling conventions:
* Rust `f32` values are modelled by exact rationals extended with the IEEE
  special values `nan`, `inf`, `ninf`.  Finite-precision rounding of f32
  arithmetic is not modelled; this is sound for the properties below because
  each depends only on the zero-total behaviour, on finiteness, and on the
  computation being a deterministic function of the integer inputs, never on
  a concretely rounded value.  (Overflow to infinity is impossible here:
  `usize` inputs are below 2^64 and `2^64 * 100` is far below f32::MAX.)
* Rust `usize` values are modelled by `Nat`; where Rust's `parse::<usize>`
  can overflow, the explicit bound `2^64` appears in the model.
* `str::trim` / `char::is_whitespace` are modelled over the `List Char`
  view of `String` via `Char.isWhitespace` (the claims only involve ASCII).
* A text buffer handed to `log_from_tf` is modelled as its list of lines,
  since `buf.lines()` is the first thing the Rust function does; splicing a
  string into a template line is honest only when it contains no newline,
  which the theorems record as hypotheses.
-/

namespace Stu

instance {ε α : Type} [DecidableEq ε] [DecidableEq α] : DecidableEq (Except ε α) := fun a b =>
  match a, b with
  | .error e, .error f => decidable_of_iff (e = f) (by simp)
  | .error _, .ok _ => isFalse (by simp)
  | .ok _, .error _ => isFalse (by simp)
  | .ok x, .ok y => decidable_of_iff (x = y) (by simp)

/-- Model of Rust `f32` computation results: exact rationals plus the IEEE
special values produced by division by zero. -/
inductive F32 where
  | nan
  | inf
  | ninf
  | fin (q : ℚ)
deriving DecidableEq, Repr

/-- Round half away from zero: the rounding mode of Rust `f32::round`. -/
def froundQ (q : ℚ) : ℚ :=
  if 0 ≤ q then ((⌊q + 1/2⌋ : ℤ) : ℚ) else -((⌊-q + 1/2⌋ : ℤ) : ℚ)

/-- src/stu/utils.rs `get_percentage`: computes `(amount * 100.0) / total` and
rounds the result with `f32::round`.  When `total == 0`, IEEE division yields
`NaN` (for `amount == 0`) or a signed infinity, and `round` maps those to
themselves; the function never reports an error. -/
def get_percentage (amount total : ℚ) : F32 :=
  if total = 0 then
    if amount = 0 then .nan
    else if 0 < amount then .inf
    else .ninf
  else .fin (froundQ (amount * 100 / total))

/-- Model of Rust `str::trim` on the right end: drop trailing whitespace. -/
def trimRightList (l : List Char) : List Char :=
  (l.reverse.dropWhile Char.isWhitespace).reverse

/-- Model of Rust `str::trim`: drop leading and trailing whitespace.  Rust's
`char::is_whitespace` is Unicode White_Space; `Char.isWhitespace` covers the
ASCII subset, which is all the templates and claims involve. -/
def rustTrim (s : String) : String :=
  ⟨trimRightList (s.data.dropWhile Char.isWhitespace)⟩

theorem trimRightList_last (c : Char) (hc : c.isWhitespace = false) (l : List Char) :
    trimRightList (l ++ [c]) = l ++ [c] := by
  unfold trimRightList
  rw [List.reverse_append, List.reverse_singleton, List.singleton_append,
    List.dropWhile_cons_of_neg (by simp [hc])]
  simp

/-- Trimming a line of the shape `[` value `]` changes nothing: the brackets
shield the content. -/
theorem rustTrim_bracketed (s : String) :
    rustTrim ("[" ++ s ++ "]") = "[" ++ s ++ "]" := by
  unfold rustTrim
  have hdata : ("[" ++ s ++ "]").data = ('[' :: s.data) ++ [']'] := by
    rw [String.data_append, String.data_append]; rfl
  rw [hdata]
  rw [List.cons_append, List.dropWhile_cons_of_neg (by decide), ← List.cons_append,
    trimRightList_last ']' (by decide)]
  rw [← hdata]

/-- Trimming keeps a non-whitespace head character in place. -/
theorem rustTrim_head (c : Char) (hc : c.isWhitespace = false) (l : List Char) :
    ∃ l', rustTrim ⟨c :: l⟩ = ⟨c :: l'⟩ := by
  unfold rustTrim trimRightList
  rw [show (String.mk (c :: l)).data = c :: l from rfl,
    List.dropWhile_cons_of_neg (by simp [hc]), List.reverse_cons, List.dropWhile_append]
  split
  · exact ⟨[], by simp [hc]⟩
  · exact ⟨(l.reverse.dropWhile Char.isWhitespace).reverse, by simp⟩

/-- A line starting with a non-whitespace character trims to a string with the
same head, hence differs from any target string with a different head. -/
theorem rustTrim_head_ne (c : Char) (hc : c.isWhitespace = false) (l : List Char)
    (t : String) (ht : t.data.head? ≠ some c) : rustTrim ⟨c :: l⟩ ≠ t := by
  obtain ⟨l', hl'⟩ := rustTrim_head c hc l
  rw [hl']
  intro h
  apply ht
  rw [← h]
  rfl

/-- src/stu/utils.rs `remove_brackets`: keeps every character that is neither
`[` nor `]` (it strips all brackets, not only the surrounding pair). -/
def remove_brackets (s : String) : String :=
  ⟨s.data.filter (fun c => !(c == '[') && !(c == ']'))⟩

theorem remove_brackets_bracketed (s : String)
    (h : ∀ c ∈ s.data, c ≠ '[' ∧ c ≠ ']') :
    remove_brackets ("[" ++ s ++ "]") = s := by
  unfold remove_brackets
  have hdata : ("[" ++ s ++ "]").data = '[' :: (s.data ++ [']']) := by
    rw [String.data_append, String.data_append]; rfl
  rw [hdata]
  have h1 : List.filter (fun c => !(c == '[') && !(c == ']')) ('[' :: (s.data ++ [']'])) =
      List.filter (fun c => !(c == '[') && !(c == ']')) (s.data ++ [']']) :=
    List.filter_cons_of_neg (by decide)
  rw [h1, List.filter_append]
  rw [List.filter_eq_self.mpr (by intro a ha; simp [(h a ha).1, (h a ha).2])]
  have h2 : List.filter (fun c => !(c == '[') && !(c == ']')) [']'] = [] := by decide
  rw [h2, List.append_nil]

/-- Digit-run parser underlying `parseUsize`: at least one character, all
ASCII digits. -/
def parseDigits (l : List Char) : Option Nat :=
  if l ≠ [] ∧ l.all Char.isDigit then
    some (l.foldl (fun n c => n * 10 + (c.toNat - 48)) 0)
  else none

/-- Model of Rust `parse::<usize>()` on a string slice: an optional leading
`+`, then one or more ASCII digits, value below `2^64` (overflow errors). -/
def parseUsize (s : String) : Option Nat :=
  let l := match s.data with
    | '+' :: rest => rest
    | l => l
  match parseDigits l with
  | some v => if v < 2 ^ 64 then some v else none
  | none => none

/-- Decimal digits of `n`, most significant first: the model of Rust's
`u32::to_string` (no padding, base 10). -/
def decDigits (n : Nat) : List Char :=
  if n < 10 then [Nat.digitChar n]
  else decDigits (n / 10) ++ [Nat.digitChar (n % 10)]
termination_by n
decreasing_by exact Nat.div_lt_self (by omega) (by omega)

/-- Model of Rust `u32::to_string` (used for the uid at `Log::new`). -/
def decRepr (n : Nat) : String :=
  ⟨decDigits n⟩

theorem decDigits_length_pos (n : Nat) : 1 ≤ (decDigits n).length := by
  rw [decDigits]
  split <;> simp

theorem decDigits_length_le : ∀ (k n : Nat), 1 ≤ k → n < 10 ^ k → (decDigits n).length ≤ k := by
  intro k
  induction k with
  | zero => omega
  | succ k ih =>
    intro n _ hn
    rw [decDigits]
    split
    · simp
    · rename_i h10
      have hk : 1 ≤ k := by
        by_contra hk
        have : k = 0 := by omega
        subst this
        simp at hn
        omega
      have hdiv : n / 10 < 10 ^ k := by
        apply Nat.div_lt_of_lt_mul
        rw [pow_succ] at hn
        omega
      have := ih (n / 10) hk hdiv
      simp only [List.length_append, List.length_singleton]
      omega

theorem decDigits_length_ge : ∀ (k n : Nat), 10 ^ k ≤ n → k + 1 ≤ (decDigits n).length := by
  intro k
  induction k with
  | zero =>
    intro n _
    exact decDigits_length_pos n
  | succ k ih =>
    intro n hn
    have h10 : ¬ n < 10 := by
      have : (10 : ℕ) ≤ 10 ^ (k + 1) := by
        calc (10 : ℕ) = 10 ^ 1 := by norm_num
        _ ≤ 10 ^ (k + 1) := Nat.pow_le_pow_right (by norm_num) (by omega)
      omega
    rw [decDigits]
    rw [if_neg h10]
    have hdiv : 10 ^ k ≤ n / 10 := by
      rw [Nat.le_div_iff_mul_le (by norm_num)]
      rw [pow_succ] at hn
      omega
    have := ih (n / 10) hdiv
    simp only [List.length_append, List.length_singleton]
    omega

theorem decDigits_all_digits : ∀ (n : Nat), ∀ c ∈ decDigits n, c.isDigit = true := by
  intro n
  induction n using Nat.strong_induction_on with
  | _ n ih =>
    rw [decDigits]
    split
    · rename_i h
      intro c hc
      rw [List.mem_singleton] at hc
      subst hc
      interval_cases n <;> decide
    · rename_i h
      intro c hc
      rw [List.mem_append] at hc
      rcases hc with hc | hc
      · exact ih (n / 10) (Nat.div_lt_self (by omega) (by omega)) c hc
      · rw [List.mem_singleton] at hc
        subst hc
        have hm : n % 10 < 10 := Nat.mod_lt n (by omega)
        set m := n % 10 with hmdef
        interval_cases m <;> decide

/-- src/stu/mod.rs `Log`: one study/quiz session. -/
structure Log where
  subject : String
  topic : String
  date : String
  uid : String
  total_questions : Nat
  right_answers : Nat
  percentage : F32
deriving DecidableEq, Repr

/-- src/stu/mod.rs `Journal`: a named collection of logs. -/
structure Journal where
  name : String
  logs : List Log
deriving DecidableEq, Repr

/-- src/stu/mod.rs `Log::new`: sentinel fields, uid from the decimal rendering
of the current clock tick's `subsec_nanos()` (a `u32` below `10^9`),
parametrised here by that nondeterministic nanosecond value. -/
def Log.new (nanos : Nat) : Log :=
  { subject := "unknown"
    topic := "unknown"
    date := "unknown"
    uid := decRepr nanos
    total_questions := 0
    right_answers := 0
    percentage := .fin 0 }

/-- src/stu/mod.rs `Journal::new`. -/
def Journal.new (name : String) : Journal :=
  { name := name, logs := [] }

/-- src/stu/mod.rs `Journal::add_log`: append, no dedup. -/
def Journal.add_log (j : Journal) (log : Log) : Journal :=
  { j with logs := j.logs ++ [log] }

/-- main.rs `query_uid` (lines 454-478): rejects a uid whose length is not 9,
then scans all journals' logs in order and returns the first log whose uid
matches; `NotFound` otherwise.  Rust `str::len` is a byte count, which equals
the character count on the all-ASCII uids the program stores. -/
def query_uid (uid : String) (journals : List Journal) : Except Unit Log :=
  if uid.length ≠ 9 then .error ()
  else
    match (journals.map Journal.logs).flatten.find? (fun l => l.uid == uid) with
    | some l => .ok l
    | none => .error ()

/-- C9 counterexample: the claim says every uid assigned by `Log::new` has
fixed length 9.  At the concrete clock value `subsec_nanos() = 5` the uid is
the unpadded string `"5"` of length 1, and the caller-side validation in
`query_uid` rejects it even when a log with exactly that uid is stored. -/
theorem log_new_uid_cex :
    (Log.new 5).uid = "5" ∧ (Log.new 5).uid.length ≠ 9 ∧
      query_uid (Log.new 5).uid [⟨"J", [Log.new 5]⟩] = .error () := by
  have h5 : (Log.new 5).uid = "5" := by
    show decRepr 5 = "5"
    rw [decRepr, decDigits]
    norm_num
    rfl
  refine ⟨h5, ?_, ?_⟩ <;> rw [h5] <;> decide

/-- C9 amended: the uid assigned by `Log::new` is the unpadded decimal
rendering of `subsec_nanos() < 10^9`: all characters are ASCII digits and the
length is between 1 and 9; it has length exactly 9 (and hence passes
`query_uid`'s fixed-length validation) only when the tick is at least
`10^8`. -/
theorem log_new_uid_format (nanos : Nat) (h : nanos < 10 ^ 9) :
    (∀ c ∈ (Log.new nanos).uid.data, c.isDigit = true) ∧
      1 ≤ (Log.new nanos).uid.length ∧ (Log.new nanos).uid.length ≤ 9 ∧
      (10 ^ 8 ≤ nanos → (Log.new nanos).uid.length = 9) := by
  have hdata : (Log.new nanos).uid.data = decDigits nanos := rfl
  have hlen : (Log.new nanos).uid.length = (decDigits nanos).length := rfl
  refine ⟨?_, ?_, ?_, ?_⟩
  · rw [hdata]
    exact decDigits_all_digits nanos
  · rw [hlen]
    exact decDigits_length_pos nanos
  · rw [hlen]
    exact decDigits_length_le 9 nanos (by norm_num) h
  · intro h8
    rw [hlen]
    have := decDigits_length_ge 8 nanos h8
    have := decDigits_length_le 9 nanos (by norm_num) h
    omega

/-- C9 amended, witness at `nanos = 987654321`. -/
theorem log_new_uid_format_witness :
    987654321 < 10 ^ 9 ∧ (Log.new 987654321).uid.length = 9 :=
  ⟨by norm_num, (log_new_uid_format 987654321 (by norm_num)).2.2.2 (by norm_num)⟩

/-- Observable error kinds of `log_from_tf` (the Rust function returns
`Result<Log, ()>`; the kinds below are distinguished by the diagnostics it
prints: "a field was left unchanged" versus "Failed to read log file ... at
line N"). -/
inductive LogParseError where
  | unmodifiedField
  | invalidNumber (line : Nat)
deriving DecidableEq, Repr

/-- One iteration of `log_from_tf`'s scanning loop, for a `current` line that
has a successor `next` whose 1-based line number is `lineNumber`: matches the
trimmed current line against the placeholder and the four labels. -/
def processPair (log : Log) (current next : String) (lineNumber : Nat) :
    Except LogParseError Log :=
  if rustTrim current = "[type here]" then .error .unmodifiedField
  else if rustTrim current = "Subject" then .ok { log with subject := remove_brackets next }
  else if rustTrim current = "Topic" then .ok { log with topic := remove_brackets next }
  else if rustTrim current = "Total Questions" then
    match parseUsize (remove_brackets next) with
    | some v => .ok { log with total_questions := v }
    | none => .error (.invalidNumber lineNumber)
  else if rustTrim current = "Right Answers" then
    match parseUsize (remove_brackets next) with
    | some v => .ok { log with right_answers := v }
    | none => .error (.invalidNumber lineNumber)
  else .ok log

/-- The `while let ... peek()` loop of `log_from_tf`: walks overlapping line
pairs `(line i, line i+1)`; `idx` is the 0-based index of the current line,
so the reported 1-based number of the `next` line is `idx + 2`. -/
def logFromTfLoop (log : Log) (idx : Nat) : List String → Except LogParseError Log
  | current :: next :: rest =>
    match processPair log current next (idx + 2) with
    | .error e => .error e
    | .ok log' => logFromTfLoop log' (idx + 1) (next :: rest)
  | _ => .ok log

/-- src/stu/mod.rs `log_from_tf`: scans the buffer's lines (the buffer is
modelled as its line list, cf. the header comment), then recomputes
`percentage` from the parsed counts.  `nanos` is the clock tick consumed by
the initial `Log::new()`. -/
def log_from_tf (nanos : Nat) (bufLines : List String) : Except LogParseError Log :=
  match logFromTfLoop (Log.new nanos) 0 bufLines with
  | .error e => .error e
  | .ok log =>
    .ok { log with
          percentage := get_percentage (log.right_answers : ℚ) (log.total_questions : ℚ) }

theorem logFromTfLoop_cons (log : Log) (idx : Nat) (current next : String)
    (rest : List String) (log' : Log)
    (h : processPair log current next (idx + 2) = .ok log') :
    logFromTfLoop log idx (current :: next :: rest) =
      logFromTfLoop log' (idx + 1) (next :: rest) := by
  simp [logFromTfLoop, h]

theorem logFromTfLoop_cons_error (log : Log) (idx : Nat) (current next : String)
    (rest : List String) (e : LogParseError)
    (h : processPair log current next (idx + 2) = .error e) :
    logFromTfLoop log idx (current :: next :: rest) = .error e := by
  simp [logFromTfLoop, h]

theorem processPair_not_label (log : Log) (current next : String) (n : Nat)
    (h0 : rustTrim current ≠ "[type here]") (h1 : rustTrim current ≠ "Subject")
    (h2 : rustTrim current ≠ "Topic") (h3 : rustTrim current ≠ "Total Questions")
    (h4 : rustTrim current ≠ "Right Answers") :
    processPair log current next n = .ok log := by
  unfold processPair
  rw [if_neg h0, if_neg h1, if_neg h2, if_neg h3, if_neg h4]

theorem head_ne_of_char (c d : Char) (s : String) (hs : s.data.head? = some d)
    (hcd : c ≠ d) : s.data.head? ≠ some c := by
  rw [hs]
  intro hh
  rw [Option.some.injEq] at hh
  exact hcd hh.symm

/-- A current line whose first character is none of `[`, `S`, `T`, `R` (and is
not whitespace) matches no label and no placeholder: the loop skips it. -/
theorem processPair_head (log : Log) (next : String) (n : Nat) (c : Char) (l : List Char)
    (hc : c.isWhitespace = false)
    (h1 : c ≠ '[') (h2 : c ≠ 'S') (h3 : c ≠ 'T') (h4 : c ≠ 'R') :
    processPair log ⟨c :: l⟩ next n = .ok log := by
  apply processPair_not_label
  · exact rustTrim_head_ne c hc l _ (head_ne_of_char c '[' _ rfl h1)
  · exact rustTrim_head_ne c hc l _ (head_ne_of_char c 'S' _ rfl h2)
  · exact rustTrim_head_ne c hc l _ (head_ne_of_char c 'T' _ rfl h3)
  · exact rustTrim_head_ne c hc l _ (head_ne_of_char c 'T' _ rfl h3)
  · exact rustTrim_head_ne c hc l _ (head_ne_of_char c 'R' _ rfl h4)

theorem bracketed_eq_iff (v w : String) :
    ("[" ++ v ++ "]" : String) = ("[" ++ w ++ "]" : String) ↔ v = w := by
  constructor
  · intro h
    have hd := congrArg String.data h
    rw [String.data_append, String.data_append, String.data_append, String.data_append] at hd
    have h2 := List.append_cancel_right hd
    have h3 := List.append_cancel_left h2
    exact congrArg String.mk h3
  · intro h
    rw [h]

theorem bracketed_ne_of_head (v : String) (t : String) (ht : t.data.head? ≠ some '[') :
    ("[" ++ v ++ "]" : String) ≠ t := by
  intro hh
  apply ht
  rw [← hh]
  rfl

/-- A bracket-wrapped value line whose content is not the literal
`type here` matches no label and no placeholder: the loop skips it. -/
theorem processPair_bracketed (log : Log) (next v : String) (n : Nat)
    (hv : v ≠ "type here") :
    processPair log ("[" ++ v ++ "]") next n = .ok log := by
  have hb := rustTrim_bracketed v
  apply processPair_not_label
  · rw [hb]
    intro hh
    rw [show ("[type here]" : String) = "[" ++ "type here" ++ "]" from rfl] at hh
    exact hv ((bracketed_eq_iff v "type here").mp hh)
  · rw [hb]; exact bracketed_ne_of_head v _ (by decide)
  · rw [hb]; exact bracketed_ne_of_head v _ (by decide)
  · rw [hb]; exact bracketed_ne_of_head v _ (by decide)
  · rw [hb]; exact bracketed_ne_of_head v _ (by decide)

theorem processPair_skip_concrete (log : Log) (current next : String) (n : Nat)
    (h0 : rustTrim current = current)
    (hne : current ∉ (["[type here]", "Subject", "Topic", "Total Questions",
      "Right Answers"] : List String)) :
    processPair log current next n = .ok log := by
  apply processPair_not_label <;> rw [h0] <;> simp_all

theorem processPair_placeholder (log : Log) (next : String) (n : Nat) :
    processPair log "[type here]" next n = .error .unmodifiedField := by
  unfold processPair
  rw [show rustTrim "[type here]" = "[type here]" from by decide, if_pos rfl]

theorem processPair_subject (log : Log) (next : String) (n : Nat) :
    processPair log "Subject" next n = .ok { log with subject := remove_brackets next } := by
  unfold processPair
  rw [show rustTrim "Subject" = "Subject" from by decide]
  rw [if_neg (by decide), if_pos rfl]

theorem processPair_topic (log : Log) (next : String) (n : Nat) :
    processPair log "Topic" next n = .ok { log with topic := remove_brackets next } := by
  unfold processPair
  rw [show rustTrim "Topic" = "Topic" from by decide]
  rw [if_neg (by decide), if_neg (by decide), if_pos rfl]

theorem processPair_total_questions (log : Log) (next : String) (n : Nat) :
    processPair log "Total Questions" next n =
      (match parseUsize (remove_brackets next) with
       | some v => .ok { log with total_questions := v }
       | none => .error (.invalidNumber n)) := by
  unfold processPair
  rw [show rustTrim "Total Questions" = "Total Questions" from by decide]
  rw [if_neg (by decide), if_neg (by decide), if_neg (by decide), if_pos rfl]

theorem processPair_right_answers (log : Log) (next : String) (n : Nat) :
    processPair log "Right Answers" next n =
      (match parseUsize (remove_brackets next) with
       | some v => .ok { log with right_answers := v }
       | none => .error (.invalidNumber n)) := by
  unfold processPair
  rw [show rustTrim "Right Answers" = "Right Answers" from by decide]
  rw [if_neg (by decide), if_neg (by decide), if_neg (by decide), if_neg (by decide),
    if_pos rfl]

/-- Lines the loop merely skips leave the state unchanged and advance the
index. -/
theorem logFromTfLoop_skip_all (log : Log) (pre : List String)
    (h : ∀ s ∈ pre, ∀ (log' : Log) (next : String) (n : Nat),
      processPair log' s next n = .ok log') :
    ∀ (idx : Nat) (rest : List String),
      logFromTfLoop log idx (pre ++ rest) = logFromTfLoop log (idx + pre.length) rest := by
  induction pre with
  | nil =>
    intro idx rest
    simp
  | cons a pre' ih =>
    intro idx rest
    rw [List.cons_append]
    cases hpr : pre' ++ rest with
    | nil =>
      obtain ⟨hp, hr⟩ := List.append_eq_nil.mp hpr
      subst hp
      subst hr
      simp [logFromTfLoop]
    | cons b tl =>
      rw [logFromTfLoop_cons log idx a b tl log (h a (by simp) log b (idx + 2)),
        ← hpr, ih (fun s hs log' next n => h s (by simp [hs]) log' next n) (idx + 1) rest]
      congr 1
      simp only [List.length_cons]
      omega

/-- Honesty condition for splicing a string into one template line: it holds
no newline (otherwise Rust's `lines()` would split it in two). -/
def singleLine (s : String) : Prop := '\n' ∉ s.data

instance (s : String) : Decidable (singleLine s) := by
  unfold singleLine
  infer_instance

/-- A well-behaved replacement value for a bracketed template field: no
brackets (so `remove_brackets` returns it unchanged) and no newline. -/
def goodValue (v : String) : Prop := ∀ c ∈ v.data, c ≠ '[' ∧ c ≠ ']' ∧ c ≠ '\n'

instance (v : String) : Decidable (goodValue v) := by
  unfold goodValue
  exact List.decidableBAll _ _

/-- The note-builder template of `make_log` (src/stu/mod.rs lines 263-286)
with the four value lines as parameters (the user edits exactly those); the
freshly rendered blank template has all four equal to `"[type here]"`. -/
def filled_note_lines (name date sline tline qline rline : String) : List String :=
  ["STU Note Builder", "Journal: " ++ name, "Date: " ++ date, "",
   "------------------", "",
   "**TYPE INSIDE BRACKETS**", "*edit, save and exit*",
   "*to cancel just leave some field unchanged*", "",
   "Subject", sline, "",
   "Topic", tline, "",
   "Total Questions", qline, "",
   "Right Answers", rline]

/-- The blank template exactly as `make_log` renders it. -/
def note_builder_lines (name date : String) : List String :=
  filled_note_lines name date "[type here]" "[type here]" "[type here]" "[type here]"

/-- The note-edit template of `edit_log` (src/stu/mod.rs lines 400-424) with
the four value lines as parameters. -/
def note_edit_lines (sline tline qline rline : String) : List String :=
  ["STU Note edit", "", "------------------", "",
   "**TYPE INSIDE BRACKETS**", "*edit, save and exit*",
   "*to cancel just leave some field unchanged*", "",
   "Subject", sline, "",
   "Topic", tline, "",
   "Total Questions", qline, "",
   "Right Answers", rline]

/-- The text `edit_log` renders for an existing log before the external edit:
each field's current value wrapped in brackets (`usize` values in decimal). -/
def edit_template_lines (log : Log) : List String :=
  note_edit_lines ("[" ++ log.subject ++ "]") ("[" ++ log.topic ++ "]")
    ("[" ++ decRepr log.total_questions ++ "]") ("[" ++ decRepr log.right_answers ++ "]")

/-- src/stu/mod.rs `edit_log`: renders `edit_template_lines log`, hands the
file to the external editor (modelled by the arbitrary edited line buffer),
parses it back with `log_from_tf`, and restores the original log's `uid` and
`date` on the parsed result. -/
def edit_log (log : Log) (nanos : Nat) (editedLines : List String) :
    Except LogParseError Log :=
  match log_from_tf nanos editedLines with
  | .error e => .error e
  | .ok nl => .ok { nl with uid := log.uid, date := log.date }

theorem logFromTfLoop_single (log : Log) (idx : Nat) (x : String) :
    logFromTfLoop log idx [x] = .ok log := rfl

/-- Every header line of the note-builder template is skipped by the loop. -/
theorem note_prelude_skip (name date : String) :
    ∀ s ∈ (["STU Note Builder", "Journal: " ++ name, "Date: " ++ date, "",
      "------------------", "", "**TYPE INSIDE BRACKETS**", "*edit, save and exit*",
      "*to cancel just leave some field unchanged*", ""] : List String),
      ∀ (log' : Log) (next : String) (n : Nat), processPair log' s next n = .ok log' := by
  intro s hs log' next n
  fin_cases hs
  · exact processPair_skip_concrete _ _ _ _ (by decide) (by decide)
  · show processPair log' ("Journal: " ++ name) next n = .ok log'
    exact processPair_head log' next n 'J' ("ournal: ".data ++ name.data)
      (by decide) (by decide) (by decide) (by decide) (by decide)
  · show processPair log' ("Date: " ++ date) next n = .ok log'
    exact processPair_head log' next n 'D' ("ate: ".data ++ date.data)
      (by decide) (by decide) (by decide) (by decide) (by decide)
  · exact processPair_skip_concrete _ _ _ _ (by decide) (by decide)
  · exact processPair_skip_concrete _ _ _ _ (by decide) (by decide)
  · exact processPair_skip_concrete _ _ _ _ (by decide) (by decide)
  · exact processPair_skip_concrete _ _ _ _ (by decide) (by decide)
  · exact processPair_skip_concrete _ _ _ _ (by decide) (by decide)
  · exact processPair_skip_concrete _ _ _ _ (by decide) (by decide)
  · exact processPair_skip_concrete _ _ _ _ (by decide) (by decide)

/-- Every header line of the note-edit template is skipped by the loop. -/
theorem edit_prelude_skip :
    ∀ s ∈ (["STU Note edit", "", "------------------", "", "**TYPE INSIDE BRACKETS**",
      "*edit, save and exit*", "*to cancel just leave some field unchanged*",
      ""] : List String),
      ∀ (log' : Log) (next : String) (n : Nat), processPair log' s next n = .ok log' := by
  intro s hs log' next n
  fin_cases hs <;> exact processPair_skip_concrete _ _ _ _ (by decide) (by decide)

/-- C6: parsing a note-builder template in which every placeholder value line
still reads the literal `[type here]` fails with the user-cancelled
`UnmodifiedField` error and produces no Log: the first placeholder line is
hit as a "current" line right after `Subject`'s value is read, before any
numeric field is reached. -/
theorem log_from_tf_unmodified (nanos : Nat) (name date : String)
    (hn : singleLine name) (hd : singleLine date) :
    log_from_tf nanos (note_builder_lines name date) = .error .unmodifiedField := by
  unfold log_from_tf
  have hsplit : note_builder_lines name date =
      (["STU Note Builder", "Journal: " ++ name, "Date: " ++ date, "",
        "------------------", "", "**TYPE INSIDE BRACKETS**", "*edit, save and exit*",
        "*to cancel just leave some field unchanged*", ""] : List String) ++
      ["Subject", "[type here]", "", "Topic", "[type here]", "",
       "Total Questions", "[type here]", "", "Right Answers", "[type here]"] := rfl
  rw [hsplit, logFromTfLoop_skip_all _ _ (note_prelude_skip name date)]
  rw [logFromTfLoop_cons _ _ _ _ _ _ (processPair_subject _ _ _)]
  rw [logFromTfLoop_cons_error _ _ _ _ _ _ (processPair_placeholder _ _ _)]

/-- C6 witness: the blank template for journal `Math` on `01/02/2026`. -/
theorem log_from_tf_unmodified_witness :
    singleLine "Math" ∧ singleLine "01/02/2026" ∧
      log_from_tf 12345 (note_builder_lines "Math" "01/02/2026") =
        .error .unmodifiedField :=
  ⟨by decide, by decide,
    log_from_tf_unmodified 12345 "Math" "01/02/2026" (by decide) (by decide)⟩

/-- C7: in a note template whose `Total Questions` value line does not parse
as a non-negative integer after bracket stripping, parsing fails with
`InvalidNumber` carrying the correct 1-based line number: 18, the position of
exactly that value line (second conjunct). -/
theorem log_from_tf_invalid_number (nanos : Nat) (name date s t qline rline : String)
    (hn : singleLine name) (hd : singleLine date)
    (hq0 : singleLine qline) (hr0 : singleLine rline)
    (hsv : goodValue s) (htv : goodValue t)
    (hs : s ≠ "type here") (ht : t ≠ "type here")
    (hq : parseUsize (remove_brackets qline) = none) :
    log_from_tf nanos (filled_note_lines name date ("[" ++ s ++ "]") ("[" ++ t ++ "]")
        qline rline) = .error (.invalidNumber 18) ∧
      (filled_note_lines name date ("[" ++ s ++ "]") ("[" ++ t ++ "]")
        qline rline)[17]? = some qline := by
  constructor
  · unfold log_from_tf
    have hsplit : filled_note_lines name date ("[" ++ s ++ "]") ("[" ++ t ++ "]")
        qline rline =
        (["STU Note Builder", "Journal: " ++ name, "Date: " ++ date, "",
          "------------------", "", "**TYPE INSIDE BRACKETS**", "*edit, save and exit*",
          "*to cancel just leave some field unchanged*", ""] : List String) ++
        ["Subject", "[" ++ s ++ "]", "", "Topic", "[" ++ t ++ "]", "",
         "Total Questions", qline, "", "Right Answers", rline] := rfl
    rw [hsplit, logFromTfLoop_skip_all _ _ (note_prelude_skip name date)]
    rw [logFromTfLoop_cons _ _ _ _ _ _ (processPair_subject _ _ _)]
    rw [logFromTfLoop_cons _ _ _ _ _ _ (processPair_bracketed _ _ _ _ hs)]
    rw [logFromTfLoop_cons _ _ _ _ _ _
      (processPair_skip_concrete _ "" _ _ (by decide) (by decide))]
    rw [logFromTfLoop_cons _ _ _ _ _ _ (processPair_topic _ _ _)]
    rw [logFromTfLoop_cons _ _ _ _ _ _ (processPair_bracketed _ _ _ _ ht)]
    rw [logFromTfLoop_cons _ _ _ _ _ _
      (processPair_skip_concrete _ "" _ _ (by decide) (by decide))]
    rw [logFromTfLoop_cons_error _ _ _ _ _ _
      (by rw [processPair_total_questions, hq])]
    rfl
  · rfl

/-- C7 witness: a template whose `Total Questions` value line reads
`[twelve]`. -/
theorem log_from_tf_invalid_number_witness :
    parseUsize (remove_brackets "[twelve]") = none ∧
      log_from_tf 99 (filled_note_lines "Math" "01/02/2026" ("[" ++ "Sets" ++ "]")
        ("[" ++ "Unions" ++ "]") "[twelve]" "[3]") = .error (.invalidNumber 18) :=
  ⟨by decide,
    (log_from_tf_invalid_number 99 "Math" "01/02/2026" "Sets" "Unions" "[twelve]" "[3]"
      (by decide) (by decide) (by decide) (by decide) (by decide) (by decide)
      (by decide) (by decide) (by decide)).1⟩

/-- C1: rendering an existing Log into the edit template and parsing back the
buffer in which the user replaced the four value lines with changed
bracket-wrapped values yields exactly those changed values in `subject`,
`topic`, `total_questions` and `right_answers`, while `uid` and `date` are
the original log's. -/
theorem edit_log_roundtrip (orig : Log) (nanos : Nat) (s t qs rs : String) (q r : Nat)
    (hsv : goodValue s) (htv : goodValue t) (hqv : goodValue qs) (hrv : goodValue rs)
    (hs : s ≠ "type here") (ht : t ≠ "type here")
    (hq : parseUsize qs = some q) (hr : parseUsize rs = some r) :
    edit_log orig nanos
        (note_edit_lines ("[" ++ s ++ "]") ("[" ++ t ++ "]") ("[" ++ qs ++ "]")
          ("[" ++ rs ++ "]")) =
      .ok { subject := s, topic := t, date := orig.date, uid := orig.uid,
            total_questions := q, right_answers := r,
            percentage := get_percentage (r : ℚ) (q : ℚ) } := by
  have hqs : qs ≠ "type here" := by
    intro hh
    rw [hh, show parseUsize "type here" = none from by decide] at hq
    exact Option.noConfusion hq
  have hq' : parseUsize (remove_brackets ("[" ++ qs ++ "]")) = some q := by
    rw [remove_brackets_bracketed qs (fun c hc => ⟨(hqv c hc).1, (hqv c hc).2.1⟩), hq]
  have hr' : parseUsize (remove_brackets ("[" ++ rs ++ "]")) = some r := by
    rw [remove_brackets_bracketed rs (fun c hc => ⟨(hrv c hc).1, (hrv c hc).2.1⟩), hr]
  unfold edit_log
  unfold log_from_tf
  have hsplit : note_edit_lines ("[" ++ s ++ "]") ("[" ++ t ++ "]") ("[" ++ qs ++ "]")
      ("[" ++ rs ++ "]") =
      (["STU Note edit", "", "------------------", "", "**TYPE INSIDE BRACKETS**",
        "*edit, save and exit*", "*to cancel just leave some field unchanged*",
        ""] : List String) ++
      ["Subject", "[" ++ s ++ "]", "", "Topic", "[" ++ t ++ "]", "",
       "Total Questions", "[" ++ qs ++ "]", "", "Right Answers", "[" ++ rs ++ "]"] := rfl
  rw [hsplit, logFromTfLoop_skip_all _ _ edit_prelude_skip]
  rw [logFromTfLoop_cons _ _ _ _ _ _ (processPair_subject _ _ _)]
  rw [logFromTfLoop_cons _ _ _ _ _ _ (processPair_bracketed _ _ _ _ hs)]
  rw [logFromTfLoop_cons _ _ _ _ _ _
    (processPair_skip_concrete _ "" _ _ (by decide) (by decide))]
  rw [logFromTfLoop_cons _ _ _ _ _ _ (processPair_topic _ _ _)]
  rw [logFromTfLoop_cons _ _ _ _ _ _ (processPair_bracketed _ _ _ _ ht)]
  rw [logFromTfLoop_cons _ _ _ _ _ _
    (processPair_skip_concrete _ "" _ _ (by decide) (by decide))]
  rw [logFromTfLoop_cons _ _ _ _ _ _ (by rw [processPair_total_questions, hq'])]
  rw [logFromTfLoop_cons _ _ _ _ _ _ (processPair_bracketed _ _ _ _ hqs)]
  rw [logFromTfLoop_cons _ _ _ _ _ _
    (processPair_skip_concrete _ "" _ _ (by decide) (by decide))]
  rw [logFromTfLoop_cons _ _ _ _ _ _ (by rw [processPair_right_answers, hr'])]
  rw [logFromTfLoop_single]
  rw [remove_brackets_bracketed s (fun c hc => ⟨(hsv c hc).1, (hsv c hc).2.1⟩),
    remove_brackets_bracketed t (fun c hc => ⟨(htv c hc).1, (htv c hc).2.1⟩)]

/-- C1 witness: editing a stored log, changing all four fields. -/
theorem edit_log_roundtrip_witness :
    parseUsize "40" = some 40 ∧
      edit_log { subject := "Algebra", topic := "Groups", date := "01/01/2026",
                 uid := "123456789", total_questions := 10, right_answers := 5,
                 percentage := .fin 50 } 777
          (note_edit_lines ("[" ++ "Linear maps" ++ "]") ("[" ++ "Matrices" ++ "]")
            ("[" ++ "40" ++ "]") ("[" ++ "37" ++ "]")) =
        .ok { subject := "Linear maps", topic := "Matrices", date := "01/01/2026",
              uid := "123456789", total_questions := 40, right_answers := 37,
              percentage := get_percentage (37 : ℚ) (40 : ℚ) } :=
  ⟨by decide,
    edit_log_roundtrip _ 777 "Linear maps" "Matrices" "40" "37" 40 37
      (by decide) (by decide) (by decide) (by decide) (by decide) (by decide)
      (by decide) (by decide)⟩

/-- C2 counterexample: the claim says `get_percentage(right, 0)` fails with an
explicit `DivisionByZero` error.  At the concrete input `right = 0, total = 0`
the code instead returns the numeric IEEE result `NaN` (and `+inf` for
`right = 1`): it is an infallible `f32 -> f32 -> f32` function with no error
path at all, so the claim as stated is false. -/
theorem get_percentage_zero_total_cex :
    get_percentage 0 0 = F32.nan ∧ get_percentage 1 0 = F32.inf := by
  constructor <;> norm_num [get_percentage]

/-- C2 amended: for every non-negative `amount`, `get_percentage amount 0`
does not fail; it silently returns `NaN` when `amount = 0` and `+inf`
otherwise (the legacy behaviour the spec notes). -/
theorem get_percentage_zero_total (amount : ℚ) (h : 0 ≤ amount) :
    get_percentage amount 0 = (if amount = 0 then F32.nan else F32.inf) := by
  unfold get_percentage
  rcases eq_or_lt_of_le h with h0 | h0
  · simp [← h0]
  · simp [h0.ne', h0]

/-- C2 amended, witness at `amount = 2`. -/
theorem get_percentage_zero_total_witness :
    (0 : ℚ) ≤ 2 ∧ get_percentage 2 0 = F32.inf := by
  refine ⟨by norm_num, ?_⟩
  rw [get_percentage_zero_total 2 (by norm_num)]
  norm_num

/-- Rust `str::to_lowercase`, modelled by per-character ASCII lowercasing
(the full function is Unicode-aware; every name, subject, topic and date in
the claims is ASCII). -/
def to_lowercase (s : String) : String :=
  ⟨s.data.map Char.toLower⟩

/-- What `query_for` hands to `show_journals` on success: either one whole
journal (name match) or the synthetic `Query` journal's log list. -/
inductive QueryResult where
  | journal (j : Journal)
  | logs (ls : List Log)
deriving DecidableEq, Repr

/-- Whether a log matches the (already lowercased) query term on subject,
topic or date (src/stu/mod.rs lines 352-355). -/
def logMatches (str : String) (log : Log) : Bool :=
  str == to_lowercase log.subject || str == to_lowercase log.topic ||
    str == to_lowercase log.date

/-- The journal loop of `query_for`, with the accumulated `query_journal`
log list made explicit: a lowercased-name match returns that whole journal
immediately (discarding the accumulator), otherwise matching logs are
appended in encounter order. -/
def queryLoop (str : String) : List Journal → List Log → Except Unit QueryResult
  | [], acc => if acc.length > 0 then .ok (.logs acc) else .error ()
  | j :: rest, acc =>
    if to_lowercase j.name == str then .ok (.journal j)
    else queryLoop str rest (acc ++ j.logs.filter (logMatches str))

/-- src/stu/mod.rs `query_for` (lines 341-367), over the loaded journals. -/
def query_for (str : String) (journals : List Journal) : Except Unit QueryResult :=
  queryLoop str journals []

theorem queryLoop_spec (str : String) :
    ∀ (js : List Journal) (acc : List Log),
      queryLoop str js acc =
        match js.find? (fun j => to_lowercase j.name == str) with
        | some j => .ok (.journal j)
        | none =>
          if (acc ++ (js.map (fun j => j.logs.filter (logMatches str))).flatten).isEmpty
          then .error ()
          else .ok (.logs (acc ++ (js.map (fun j => j.logs.filter (logMatches str))).flatten)) := by
  intro js
  induction js with
  | nil =>
    intro acc
    simp only [queryLoop, List.find?_nil, List.map_nil, List.flatten_nil, List.append_nil]
    cases acc with
    | nil => simp
    | cons a l => simp
  | cons j rest ih =>
    intro acc
    simp only [queryLoop]
    split
    · rename_i hname
      have hfind : List.find? (fun j => to_lowercase j.name == str) (j :: rest) = some j :=
        List.find?_cons_of_pos _ hname
      rw [hfind]
    · rename_i hname
      have hfind : List.find? (fun j => to_lowercase j.name == str) (j :: rest) =
          List.find? (fun j => to_lowercase j.name == str) rest :=
        List.find?_cons_of_neg _ hname
      rw [ih, hfind, List.map_cons, List.flatten_cons, List.append_assoc]

/-- C5: `query_for` returns the first journal whose lowercased name equals
the term (short-circuiting, discarding earlier log matches); otherwise
exactly the logs whose lowercased subject, topic or date equals the term,
concatenated in encounter order across all journals; and it fails
(`NotFound`) when no journal name and no log matches. -/
theorem query_for_spec (str : String) (js : List Journal) :
    query_for str js =
      match js.find? (fun j => to_lowercase j.name == str) with
      | some j => .ok (.journal j)
      | none =>
        if ((js.map (fun j => j.logs.filter (logMatches str))).flatten).isEmpty
        then .error ()
        else .ok (.logs ((js.map (fun j => j.logs.filter (logMatches str))).flatten)) := by
  rw [query_for, queryLoop_spec]
  simp only [List.nil_append]

/-- Model of a `serde_json` number, keeping serde's internal tag: `uint` for
values parsed/stored as `u64` (all non-negative integers), `int` for negative
`i64`s, `float` for `f64`-tagged values (finite: non-finite floats cannot be
parsed from JSON text and serialize to `null`). -/
inductive JNumber where
  | uint (n : Nat)
  | int (i : Int)
  | float (q : ℚ)
deriving DecidableEq, Repr

/-- Model of a `serde_json::Value` tree.  Objects are association lists;
serde's map cannot hold duplicate keys, and every lookup below goes through
`find?`, so only lookup behaviour matters. -/
inductive JValue where
  | null
  | bool (b : Bool)
  | num (n : JNumber)
  | str (s : String)
  | arr (elems : List JValue)
  | obj (fields : List (String × JValue))

/-- Rust `Value::index` with a string key (immutable): `Null` on non-objects and
missing keys. -/
def JValue.index (v : JValue) (key : String) : JValue :=
  match v with
  | .obj fields =>
    match fields.find? (fun p => p.1 == key) with
    | some p => p.2
    | none => .null
  | _ => .null

/-- Rust `Value::as_str`. -/
def JValue.asStr : JValue → Option String
  | .str s => some s
  | _ => none

/-- Rust `Value::as_u64`: only `u64`-tagged numbers report (negative and
float-tagged numbers give `None`). -/
def JValue.asU64 : JValue → Option Nat
  | .num (.uint n) => some n
  | _ => none

/-- Rust `Value::as_array`. -/
def JValue.asArr : JValue → Option (List JValue)
  | .arr l => some l
  | _ => none

/-- serde's `f32` deserialization from a JSON value: any number casts to
`f32`; everything else (in particular `null`) is rejected. -/
def JValue.asF32 : JValue → Option F32
  | .num (.uint n) => some (.fin n)
  | .num (.int i) => some (.fin i)
  | .num (.float q) => some (.fin q)
  | _ => none

/-- Assignment through `Value`'s mutable string indexing
(`log_value["percentage"] = ...` in `get_journals`): inserts or replaces the
key in an object (modelled up to
lookup equivalence of serde's key-ordered map), turns `Null` into a fresh
one-field object, and panics (`none`) on any other type. -/
def setField (v : JValue) (key : String) (newv : JValue) : Option JValue :=
  match v with
  | .obj fields => some (.obj ((key, newv) :: fields.eraseP (fun p => p.1 == key)))
  | .null => some (.obj [(key, newv)])
  | _ => none

/-- serde_json serialization of an `f32`: finite values become numbers, `NaN`
and the infinities become `null` (`Number::from_f64` refuses them). -/
def serializeF32 : F32 → JValue
  | .fin q => .num (.float q)
  | _ => .null

/-- serde-derived `Log` deserialization (the `from_str` in `get_journals`,
modelled at tree level): every field is required; strings from strings,
`usize` from `u64`-tagged integers, `f32` from any number; `null` or
wrong-typed fields are rejected; unknown fields are ignored (serde
default). -/
def deserializeLog (v : JValue) : Option Log :=
  match (v.index "subject").asStr with
  | none => none
  | some subject =>
  match (v.index "topic").asStr with
  | none => none
  | some topic =>
  match (v.index "date").asStr with
  | none => none
  | some date =>
  match (v.index "uid").asStr with
  | none => none
  | some uid =>
  match (v.index "total_questions").asU64 with
  | none => none
  | some tq =>
  match (v.index "right_answers").asU64 with
  | none => none
  | some ra =>
  match (v.index "percentage").asF32 with
  | none => none
  | some p => some ⟨subject, topic, date, uid, tq, ra, p⟩

/-- Load-time failures: `failed` models the `Err(())` paths (after an
eprintln diagnostic), `panicked` models the Rust panic of
`log_value["percentage"] = ...` on a log entry that is neither an object nor
`null` (the process aborts; either way the document does not load). -/
inductive LoadError where
  | failed
  | panicked
deriving DecidableEq, Repr

/-- The per-log-entry body of `get_journals` (src/stu/mod.rs lines 101-117):
recomputes the percentage from the entry's stored `right_answers` and
`total_questions` via `as_u64().unwrap_or(0)`, overwrites the entry's
`percentage` field with that value's serialization, then deserializes the
whole entry into a `Log`. -/
def loadLog (v : JValue) : Except LoadError Log :=
  let percentage := get_percentage
    (((v.index "right_answers").asU64.getD 0 : Nat) : ℚ)
    (((v.index "total_questions").asU64.getD 0 : Nat) : ℚ)
  match setField v "percentage" (serializeF32 percentage) with
  | none => .error .panicked
  | some v2 =>
    match deserializeLog v2 with
    | some log => .ok log
    | none => .error .failed

/-- The per-journal body of `get_journals`: `name` must be a string, `logs`
must not be `null` (fatal schema errors otherwise); a non-null non-array
`logs` value simply yields no logs (the `for ... in as_array()` loop body
never runs); each entry of a `logs` array must load. -/
def loadJournal (jv : JValue) : Except LoadError Journal :=
  match (jv.index "name").asStr with
  | none => .error .failed
  | some name =>
    match jv.index "logs" with
    | .null => .error .failed
    | logsv =>
      match logsv.asArr with
      | some lvs => (lvs.mapM loadLog).map (fun ls => ⟨name, ls⟩)
      | none => .ok ⟨name, []⟩

/-- src/stu/mod.rs `get_journals` (lines 71-124) after the file has been read
and its text parsed into a JSON tree (file I/O and JSON text parsing are the
collaborating layers outside this model): a non-array document yields no
journals (the outer `for ... in objects.as_array()` never runs), otherwise
every journal entry must load. -/
def get_journals (doc : JValue) : Except LoadError (List Journal) :=
  match doc.asArr with
  | none => .ok []
  | some jvals => jvals.mapM loadJournal

/-- serde-derived `Log` serialization (field order as declared). -/
def serializeLog (l : Log) : JValue :=
  .obj [("subject", .str l.subject), ("topic", .str l.topic), ("date", .str l.date),
        ("uid", .str l.uid), ("total_questions", .num (.uint l.total_questions)),
        ("right_answers", .num (.uint l.right_answers)),
        ("percentage", serializeF32 l.percentage)]

/-- serde-derived `Journal` serialization. -/
def serializeJournal (j : Journal) : JValue :=
  .obj [("name", .str j.name), ("logs", .arr (j.logs.map serializeLog))]

/-- The persisted document: `serde_json::to_string(&journals)` composed with
src/stu/mod.rs `sync_data` (lines 327-339), which writes that text verbatim
(then flushes and syncs); reading the same path back recovers this tree. -/
def sync_data (journals : List Journal) : JValue :=
  .arr (journals.map serializeJournal)

/-- A log with its `percentage` freshly recomputed, as load performs it. -/
def recomputeLog (l : Log) : Log :=
  { l with percentage := get_percentage (l.right_answers : ℚ) (l.total_questions : ℚ) }

/-- A journal with every log's `percentage` freshly recomputed. -/
def recomputeJournal (j : Journal) : Journal :=
  { j with logs := j.logs.map recomputeLog }

theorem except_bind_ok {ε α β : Type} (a : α) (f : α → Except ε β) :
    (Except.ok a >>= f) = f a := rfl

theorem except_bind_error {ε α β : Type} (e : ε) (f : α → Except ε β) :
    ((Except.error e : Except ε α) >>= f) = Except.error e := rfl

theorem find?_eraseP_ne (fields : List (String × JValue)) (key k : String) (hk : k ≠ key) :
    (fields.eraseP (fun p => p.1 == key)).find? (fun p => p.1 == k) =
      fields.find? (fun p => p.1 == k) := by
  induction fields with
  | nil => rfl
  | cons p rest ih =>
    by_cases hp : (p.1 == key) = true
    · have he : List.eraseP (fun p => p.1 == key) (p :: rest) = rest :=
        List.eraseP_cons_of_pos hp
      have hpk : ¬ (p.1 == k) = true := by
        intro hc
        exact hk ((beq_iff_eq.mp hc).symm.trans (beq_iff_eq.mp hp))
      have hf : List.find? (fun p => p.1 == k) (p :: rest) =
          List.find? (fun p => p.1 == k) rest :=
        List.find?_cons_of_neg _ hpk
      rw [he, hf]
    · have he : List.eraseP (fun p => p.1 == key) (p :: rest) =
          p :: List.eraseP (fun p => p.1 == key) rest :=
        List.eraseP_cons_of_neg hp
      rw [he]
      by_cases hpk : (p.1 == k) = true
      · have hf1 : List.find? (fun p => p.1 == k)
            (p :: List.eraseP (fun p => p.1 == key) rest) = some p :=
          List.find?_cons_of_pos _ hpk
        have hf2 : List.find? (fun p => p.1 == k) (p :: rest) = some p :=
          List.find?_cons_of_pos _ hpk
        rw [hf1, hf2]
      · have hf1 : List.find? (fun p => p.1 == k)
            (p :: List.eraseP (fun p => p.1 == key) rest) =
            List.find? (fun p => p.1 == k) (List.eraseP (fun p => p.1 == key) rest) :=
          List.find?_cons_of_neg _ hpk
        have hf2 : List.find? (fun p => p.1 == k) (p :: rest) =
            List.find? (fun p => p.1 == k) rest :=
          List.find?_cons_of_neg _ hpk
        rw [hf1, hf2, ih]

theorem index_cons_self (key : String) (newv : JValue) (rest : List (String × JValue)) :
    (JValue.obj ((key, newv) :: rest)).index key = newv := by
  have hfind : List.find? (fun p => p.1 == key) ((key, newv) :: rest) = some (key, newv) :=
    List.find?_cons_of_pos _ (by simp)
  show (match List.find? (fun p => p.1 == key) ((key, newv) :: rest) with
        | some p => p.2
        | none => JValue.null) = newv
  rw [hfind]

theorem index_cons_ne (key k : String) (newv : JValue) (rest : List (String × JValue))
    (hk : k ≠ key) :
    (JValue.obj ((key, newv) :: rest)).index k = (JValue.obj rest).index k := by
  have hfind : List.find? (fun p => p.1 == k) ((key, newv) :: rest) =
      List.find? (fun p => p.1 == k) rest :=
    List.find?_cons_of_neg _ (by simp; exact Ne.symm hk)
  show (match List.find? (fun p => p.1 == k) ((key, newv) :: rest) with
        | some p => p.2
        | none => JValue.null) =
      (match List.find? (fun p => p.1 == k) rest with
        | some p => p.2
        | none => JValue.null)
  rw [hfind]

theorem index_eraseP_ne (fields : List (String × JValue)) (key k : String) (hk : k ≠ key) :
    (JValue.obj (fields.eraseP (fun p => p.1 == key))).index k =
      (JValue.obj fields).index k := by
  show (match List.find? (fun p => p.1 == k) (fields.eraseP (fun p => p.1 == key)) with
        | some p => p.2
        | none => JValue.null) =
      (match List.find? (fun p => p.1 == k) fields with
        | some p => p.2
        | none => JValue.null)
  rw [find?_eraseP_ne fields key k hk]

theorem deserializeLog_eq_some (v : JValue) (log : Log) :
    deserializeLog v = some log ↔
      (v.index "subject").asStr = some log.subject ∧
      (v.index "topic").asStr = some log.topic ∧
      (v.index "date").asStr = some log.date ∧
      (v.index "uid").asStr = some log.uid ∧
      (v.index "total_questions").asU64 = some log.total_questions ∧
      (v.index "right_answers").asU64 = some log.right_answers ∧
      (v.index "percentage").asF32 = some log.percentage := by
  cases log with
  | mk lsub ltop ldate luid ltq lra lp =>
    unfold deserializeLog
    cases h1 : (v.index "subject").asStr with
    | none => simp [h1]
    | some subject =>
      cases h2 : (v.index "topic").asStr with
      | none => simp [h1, h2]
      | some topic =>
        cases h3 : (v.index "date").asStr with
        | none => simp [h1, h2, h3]
        | some date =>
          cases h4 : (v.index "uid").asStr with
          | none => simp [h1, h2, h3, h4]
          | some uid =>
            cases h5 : (v.index "total_questions").asU64 with
            | none => simp [h1, h2, h3, h4, h5]
            | some tq =>
              cases h6 : (v.index "right_answers").asU64 with
              | none => simp [h1, h2, h3, h4, h5, h6]
              | some ra =>
                cases h7 : (v.index "percentage").asF32 with
                | none => simp [h1, h2, h3, h4, h5, h6, h7]
                | some p =>
                  simp [h1, h2, h3, h4, h5, h6, h7, Log.mk.injEq]

theorem loadLog_obj_red (fields : List (String × JValue)) :
    loadLog (.obj fields) =
      (match deserializeLog (.obj (("percentage",
          serializeF32 (get_percentage
            ((((JValue.obj fields).index "right_answers").asU64.getD 0 : Nat) : ℚ)
            ((((JValue.obj fields).index "total_questions").asU64.getD 0 : Nat) : ℚ))) ::
          fields.eraseP (fun p => p.1 == "percentage"))) with
        | some lg => Except.ok lg
        | none => Except.error LoadError.failed) := rfl

theorem match_des_ok {v : JValue} {log : Log}
    (h : (match deserializeLog v with
          | some lg => Except.ok lg
          | none => Except.error LoadError.failed) = Except.ok log) :
    deserializeLog v = some log := by
  cases hd : deserializeLog v with
  | none =>
    rw [hd] at h
    exact Except.noConfusion h
  | some lg =>
    rw [hd] at h
    injection h with h'
    rw [h']

/-- What a successful `loadLog v = ok log` entails: the log's percentage is
the value recomputed from the entry's stored counts (never the stored
percentage), that value is finite (a non-finite recomputation serializes to
`null` and is rejected), and both numeric fields are present. -/
theorem loadLog_ok_spec (v : JValue) (log : Log) (h : loadLog v = .ok log) :
    log.percentage = get_percentage
        (((v.index "right_answers").asU64.getD 0 : Nat) : ℚ)
        (((v.index "total_questions").asU64.getD 0 : Nat) : ℚ) ∧
      (∃ q, log.percentage = F32.fin q) ∧
      v.index "right_answers" ≠ .null ∧ v.index "total_questions" ≠ .null := by
  cases v with
  | null => exact Except.noConfusion h
  | bool b => exact Except.noConfusion h
  | num n => exact Except.noConfusion h
  | str s => exact Except.noConfusion h
  | arr l => exact Except.noConfusion h
  | obj fields =>
    rw [loadLog_obj_red] at h
    have hdes := match_des_ok h
    rw [deserializeLog_eq_some] at hdes
    obtain ⟨hsub, htop, hdate, huid, htq, hra, hperc⟩ := hdes
    rw [index_cons_self] at hperc
    rw [index_cons_ne _ _ _ _ (by decide), index_eraseP_ne _ _ _ (by decide)] at htq
    rw [index_cons_ne _ _ _ _ (by decide), index_eraseP_ne _ _ _ (by decide)] at hra
    refine ⟨?_, ?_, ?_, ?_⟩
    · cases hw : get_percentage
          ((((JValue.obj fields).index "right_answers").asU64.getD 0 : Nat) : ℚ)
          ((((JValue.obj fields).index "total_questions").asU64.getD 0 : Nat) : ℚ) with
      | fin q =>
        rw [hw] at hperc
        injection hperc with hp
        rw [← hp]
      | nan =>
        rw [hw] at hperc
        exact Option.noConfusion hperc
      | inf =>
        rw [hw] at hperc
        exact Option.noConfusion hperc
      | ninf =>
        rw [hw] at hperc
        exact Option.noConfusion hperc
    · cases hw : get_percentage
          ((((JValue.obj fields).index "right_answers").asU64.getD 0 : Nat) : ℚ)
          ((((JValue.obj fields).index "total_questions").asU64.getD 0 : Nat) : ℚ) with
      | fin q =>
        rw [hw] at hperc
        injection hperc with hp
        exact ⟨q, hp.symm⟩
      | nan =>
        rw [hw] at hperc
        exact Option.noConfusion hperc
      | inf =>
        rw [hw] at hperc
        exact Option.noConfusion hperc
      | ninf =>
        rw [hw] at hperc
        exact Option.noConfusion hperc
    · intro hnull
      rw [hnull] at hra
      exact Option.noConfusion hra
    · intro hnull
      rw [hnull] at htq
      exact Option.noConfusion htq

/-- Round-trip of one log through serialization and `loadLog`, when its
`total_questions` is positive: the log comes back with its percentage
recomputed. -/
theorem loadLog_serializeLog (l : Log) (ht : 0 < l.total_questions) :
    loadLog (serializeLog l) = .ok (recomputeLog l) := by
  have htq : ((l.total_questions : Nat) : ℚ) ≠ 0 := by
    rw [Nat.cast_ne_zero]
    omega
  have hfin : get_percentage (l.right_answers : ℚ) (l.total_questions : ℚ) =
      .fin (froundQ ((l.right_answers : ℚ) * 100 / (l.total_questions : ℚ))) := by
    unfold get_percentage
    rw [if_neg htq]
  have hra : ((serializeLog l).index "right_answers").asU64 = some l.right_answers := rfl
  have htq2 : ((serializeLog l).index "total_questions").asU64 = some l.total_questions := rfl
  unfold loadLog
  simp only [hra, htq2, Option.getD_some]
  rw [hfin]
  unfold recomputeLog
  rw [hfin]
  rfl

theorem mapM_serialize_loadLog : ∀ (logs : List Log),
    (∀ l ∈ logs, 0 < l.total_questions) →
    (logs.map serializeLog).mapM loadLog = .ok (logs.map recomputeLog) := by
  intro logs
  induction logs with
  | nil =>
    intro _
    rfl
  | cons a as ih =>
    intro h
    rw [List.map_cons, List.mapM_cons, loadLog_serializeLog a (h a (by simp)),
      except_bind_ok, ih (fun l hl => h l (by simp [hl])), except_bind_ok, List.map_cons]
    rfl

theorem loadJournal_serializeJournal (j : Journal)
    (h : ∀ l ∈ j.logs, 0 < l.total_questions) :
    loadJournal (serializeJournal j) = .ok (recomputeJournal j) := by
  show ((j.logs.map serializeLog).mapM loadLog).map
      (fun ls => ({ name := j.name, logs := ls } : Journal)) = _
  rw [mapM_serialize_loadLog j.logs h]
  rfl

theorem mapM_serialize_loadJournal : ∀ (js : List Journal),
    (∀ j ∈ js, ∀ l ∈ j.logs, 0 < l.total_questions) →
    (js.map serializeJournal).mapM loadJournal = .ok (js.map recomputeJournal) := by
  intro js
  induction js with
  | nil =>
    intro _
    rfl
  | cons a as ih =>
    intro h
    rw [List.map_cons, List.mapM_cons,
      loadJournal_serializeJournal a (fun l hl => h a (by simp) l hl), except_bind_ok,
      ih (fun j hj l hl => h j (by simp [hj]) l hl), except_bind_ok, List.map_cons]
    rfl

theorem mapM_ok_mem {α β : Type} (f : α → Except LoadError β) :
    ∀ (xs : List α) (ys : List β), xs.mapM f = .ok ys → ∀ x ∈ xs, ∃ y, f x = .ok y := by
  intro xs
  induction xs with
  | nil =>
    intro ys h x hx
    exact absurd hx (List.not_mem_nil x)
  | cons a as ih =>
    intro ys h x hx
    rw [List.mapM_cons] at h
    cases hfa : f a with
    | error e =>
      rw [hfa, except_bind_error] at h
      exact Except.noConfusion h
    | ok b =>
      rw [hfa, except_bind_ok] at h
      cases hrec : as.mapM f with
      | error e =>
        rw [hrec, except_bind_error] at h
        exact Except.noConfusion h
      | ok bs =>
        rcases List.mem_cons.mp hx with rfl | hx'
        · exact ⟨b, hfa⟩
        · exact ih bs hrec x hx'

theorem get_percentage_zero_not_fin (x q : ℚ) : get_percentage x 0 ≠ .fin q := by
  unfold get_percentage
  rw [if_pos rfl]
  split
  · exact fun hh => F32.noConfusion hh
  · split <;> exact fun hh => F32.noConfusion hh

theorem loadLog_zero_total (lv : JValue) (lg : Log)
    (htq : (lv.index "total_questions").asU64.getD 0 = 0) :
    loadLog lv ≠ .ok lg := by
  intro h
  obtain ⟨h1, ⟨q, hq⟩, _, _⟩ := loadLog_ok_spec lv lg h
  rw [htq, hq, Nat.cast_zero] at h1
  exact get_percentage_zero_not_fin _ q h1.symm

/-- C3 amended: saving an in-memory journal sequence and loading it back
reproduces the collection field-for-field, with each log's percentage
recomputed from its counts — provided every log has positive
`total_questions` (a zero total makes the recomputed percentage non-finite,
which round-trips through JSON `null` and is rejected on load, cf. the
counterexample). -/
theorem save_load_roundtrip (journals : List Journal)
    (h : ∀ j ∈ journals, ∀ l ∈ j.logs, 0 < l.total_questions) :
    get_journals (sync_data journals) = .ok (journals.map recomputeJournal) :=
  mapM_serialize_loadJournal journals h

/-- The C3/C10 failing document: one journal holding one log with
`total_questions = 0`. -/
def zeroTotalJournals : List Journal :=
  [{ name := "Math",
     logs := [{ subject := "Algebra", topic := "Sets", date := "01/01/2026",
                uid := "123456789", total_questions := 0, right_answers := 3,
                percentage := .fin 0 }] }]

/-- C3 counterexample: the round-trip claim quantifies over every in-memory
journal sequence, but saving a journal whose log has `total_questions = 0`
and loading it back fails (`+inf` percentage serializes to `null`, which the
`Log` deserializer rejects) instead of reproducing the collection. -/
theorem save_load_roundtrip_cex :
    get_journals (sync_data zeroTotalJournals) = .error .failed ∧
      get_journals (sync_data zeroTotalJournals) ≠
        .ok (zeroTotalJournals.map recomputeJournal) := by
  have h : get_journals (sync_data zeroTotalJournals) = .error .failed := by decide
  refine ⟨h, ?_⟩
  rw [h]
  intro hh
  exact Except.noConfusion hh

/-- C3 amended, witness: a one-journal document with a positive total. -/
theorem save_load_roundtrip_witness :
    get_journals (sync_data
        [{ name := "Math",
           logs := [{ subject := "Algebra", topic := "Sets", date := "01/01/2026",
                      uid := "123456789", total_questions := 4, right_answers := 3,
                      percentage := .fin 0 }] }]) =
      .ok (([{ name := "Math",
               logs := [{ subject := "Algebra", topic := "Sets", date := "01/01/2026",
                          uid := "123456789", total_questions := 4, right_answers := 3,
                          percentage := .fin 0 }] }] : List Journal).map recomputeJournal) :=
  save_load_roundtrip _ (by decide)

/-- C4 (amended): every log entry that loads successfully carries the
percentage recomputed from its stored `right_answers` and `total_questions`
(read with `as_u64().unwrap_or(0)`, so an absent field enters the
recomputation as zero) — a stored percentage value is never trusted; but both
numeric fields must actually be present, or the entry is rejected. -/
theorem loadLog_recompute_missing (v : JValue) (log : Log) (h : loadLog v = .ok log) :
    log.percentage = get_percentage
        (((v.index "right_answers").asU64.getD 0 : Nat) : ℚ)
        (((v.index "total_questions").asU64.getD 0 : Nat) : ℚ) ∧
      v.index "right_answers" ≠ .null ∧ v.index "total_questions" ≠ .null := by
  obtain ⟨h1, _, h3, h4⟩ := loadLog_ok_spec v log h
  exact ⟨h1, h3, h4⟩

/-- A log entry with every schema field except `right_answers`. -/
def missingRaEntry : JValue :=
  .obj [("subject", .str "Algebra"), ("topic", .str "Sets"),
        ("date", .str "01/01/2026"), ("uid", .str "123456789"),
        ("total_questions", .num (.uint 5)), ("percentage", .num (.float 0))]

/-- C4 counterexample: the claim says an entry with a missing numeric field
still loads (with the field defaulted to zero).  In fact the missing
`right_answers` makes `serde` deserialization fail, and the whole document
load fails with it. -/
theorem loadLog_missing_field_cex :
    loadLog missingRaEntry = .error .failed ∧
      get_journals (.arr [.obj [("name", .str "Math"),
        ("logs", .arr [missingRaEntry])]]) = .error .failed := by
  constructor
  · decide
  · decide

/-- C4 amended, witness: a complete entry (total 4, right 3) loads with its
percentage recomputed from the stored counts. -/
theorem loadLog_recompute_missing_witness :
    loadLog (serializeLog
        { subject := "Algebra", topic := "Sets", date := "01/01/2026",
          uid := "123456789", total_questions := 4, right_answers := 3,
          percentage := .fin 0 }) =
      .ok (recomputeLog
        { subject := "Algebra", topic := "Sets", date := "01/01/2026",
          uid := "123456789", total_questions := 4, right_answers := 3,
          percentage := .fin 0 }) ∧
      (recomputeLog
        { subject := "Algebra", topic := "Sets", date := "01/01/2026",
          uid := "123456789", total_questions := 4, right_answers := 3,
          percentage := .fin 0 }).percentage =
        get_percentage
          ((((serializeLog
            { subject := "Algebra", topic := "Sets", date := "01/01/2026",
              uid := "123456789", total_questions := 4, right_answers := 3,
              percentage := .fin 0 }).index "right_answers").asU64.getD 0 : Nat) : ℚ)
          ((((serializeLog
            { subject := "Algebra", topic := "Sets", date := "01/01/2026",
              uid := "123456789", total_questions := 4, right_answers := 3,
              percentage := .fin 0 }).index "total_questions").asU64.getD 0 : Nat) : ℚ) :=
  ⟨loadLog_serializeLog _ (by decide),
    (loadLog_recompute_missing _ _ (loadLog_serializeLog _ (by decide))).1⟩

/-- C10: a stored document containing a log entry whose `total_questions`
field is 0 or absent (any `right_answers`, all other schema fields possibly
present and well-formed) cannot load: the recomputed percentage is the
non-finite `NaN`/`inf`, which serializes to JSON `null`, and the `Log`
deserializer rejects a `null` percentage, so `get_journals` fails on the
whole document. -/
theorem get_journals_zero_total_fails (jvs : List JValue) (jv lv : JValue)
    (lvs : List JValue) (journals : List Journal)
    (hjv : jv ∈ jvs) (hlogs : jv.index "logs" = .arr lvs) (hlv : lv ∈ lvs)
    (htq : (lv.index "total_questions").asU64.getD 0 = 0) :
    get_journals (.arr jvs) ≠ .ok journals := by
  intro h
  have hJ : jvs.mapM loadJournal = .ok journals := h
  obtain ⟨j, hj⟩ := mapM_ok_mem loadJournal jvs journals hJ jv hjv
  have hj' := hj
  unfold loadJournal at hj'
  cases hname : (jv.index "name").asStr with
  | none =>
    rw [hname] at hj'
    exact Except.noConfusion hj'
  | some name =>
    rw [hname, hlogs] at hj'
    have hmm : ((lvs.mapM loadLog).map
        (fun ls => ({ name := name, logs := ls } : Journal))) = .ok j := hj'
    cases hml : lvs.mapM loadLog with
    | error e =>
      rw [hml] at hmm
      exact Except.noConfusion hmm
    | ok ls =>
      obtain ⟨lg, hlg⟩ := mapM_ok_mem loadLog lvs ls hml lv hlv
      exact loadLog_zero_total lv lg htq hlg

/-- The C10 witness entry: `total_questions = 0`, `right_answers = 3`. -/
def zeroEntry : JValue :=
  .obj [("subject", .str "Algebra"), ("topic", .str "Sets"),
        ("date", .str "01/01/2026"), ("uid", .str "123456789"),
        ("total_questions", .num (.uint 0)), ("right_answers", .num (.uint 3)),
        ("percentage", .num (.float 0))]

/-- C10 witness: the concrete one-journal document holding `zeroEntry`. -/
theorem get_journals_zero_total_fails_witness :
    (zeroEntry.index "total_questions").asU64.getD 0 = 0 ∧
      get_journals (.arr [.obj [("name", .str "Math"),
        ("logs", .arr [zeroEntry])]]) ≠ .ok [] :=
  ⟨rfl,
    get_journals_zero_total_fails
      [.obj [("name", .str "Math"), ("logs", .arr [zeroEntry])]]
      (.obj [("name", .str "Math"), ("logs", .arr [zeroEntry])])
      zeroEntry [zeroEntry] []
      (List.mem_singleton.mpr rfl) rfl (List.mem_singleton.mpr rfl) rfl⟩

/-- The add-journal command path (src/main.rs lines 544-571, `add -j`):
builds a fresh journal named `name` containing the single new log and pushes
it at the end of the loaded journal list, unconditionally — there is no check
against an existing journal of the same name. -/
def add_journal_cmd (journals : List Journal) (name : String) (newLog : Log) :
    List Journal :=
  journals ++ [{ name := name, logs := [newLog] }]

/-- Journal names are pairwise distinct under case-sensitive equality (the
spec's "unique key" reading). -/
def namesDistinct (journals : List Journal) : Prop :=
  (journals.map Journal.name).Nodup

instance (js : List Journal) : Decidable (namesDistinct js) := by
  unfold namesDistinct
  exact List.nodupDecidable _

/-- C8 counterexample: starting from the distinct-name document containing
only journal `Math`, the add-journal command with the name `Math` produces a
document with two journals called `Math`: the path does not preserve the
uniqueness invariant. -/
theorem add_journal_cmd_cex :
    namesDistinct [⟨"Math", []⟩] ∧
      ¬ namesDistinct (add_journal_cmd [⟨"Math", []⟩] "Math" (Log.new 1)) := by
  constructor
  · decide
  · decide

/-- C8 amended: the add-journal path appends unconditionally, so it preserves
pairwise-distinct journal names only when the new name differs from every
existing journal name. -/
theorem add_journal_cmd_preserves (journals : List Journal) (name : String) (newLog : Log)
    (hdist : namesDistinct journals)
    (hfresh : name ∉ journals.map Journal.name) :
    namesDistinct (add_journal_cmd journals name newLog) := by
  unfold namesDistinct add_journal_cmd
  rw [List.map_append, List.nodup_append]
  refine ⟨hdist, by simp, ?_⟩
  intro a ha hb
  rw [List.map_singleton, List.mem_singleton] at hb
  subst hb
  exact hfresh ha

/-- C8 amended, witness: adding `Physics` to a document holding `Math`. -/
theorem add_journal_cmd_preserves_witness :
    namesDistinct [⟨"Math", []⟩] ∧
      "Physics" ∉ ([⟨"Math", []⟩] : List Journal).map Journal.name ∧
      namesDistinct (add_journal_cmd [⟨"Math", []⟩] "Physics" (Log.new 2)) :=
  ⟨by decide, by decide, add_journal_cmd_preserves _ _ _ (by decide) (by decide)⟩

end Stu
